import Mathlib

/-!
Verification of the cloudapp backend (Express image upload/reconciliation
service) against its specification.  JavaScript strings are embedded as
`List Char`; the JS string primitives used by the source (`split`, `join`,
indexing the first split component, `path.extname`, `toLowerCase`) are
modelled as executable Lean functions below.  Remote-store behaviour
(Cloudinary SDK calls, HEAD probes) and filesystem outcomes are supplied as
explicit oracle parameters, so every handler is a pure function of its
request plus the environment's behaviour.
-/

namespace CloudApp

/-- Model of the JavaScript one-character-separator s.split(sep):
always returns a non-empty list of (possibly empty) segments. -/
def jsSplit (sep : Char) : List Char → List (List Char)
  | [] => [[]]
  | c :: cs =>
    match jsSplit sep cs with
    | [] => [[c]]
    | r :: rs => if c = sep then [] :: r :: rs else (c :: r) :: rs

/-- Model of taking element 0 of a JS split result (always present). -/
def jsFirst (sep : Char) (s : List Char) : List Char :=
  (jsSplit sep s).headD []

/-- Model of the JavaScript arr.join(sep) for a one-character separator. -/
def jsJoin (sep : Char) : List (List Char) → List Char
  | [] => []
  | [x] => x
  | x :: y :: ys => x ++ sep :: jsJoin sep (y :: ys)

/-- Model of Node's path.extname on a basename: the suffix starting at the
last dot, or empty when there is no dot or the only dot is the first
character. -/
def extname (s : List Char) : List Char :=
  if s.contains '.' then
    if (s.reverse.takeWhile (fun c => c ≠ '.')).length + 1 = s.length then []
    else '.' :: (s.reverse.takeWhile (fun c => c ≠ '.')).reverse
  else []

/-- Result shape of the remote existence check (fetchResource in
cloudinary.js). -/
structure ProbeResult where
  exists_ : Bool
  url : Option (List Char)
  publicId : Option (List Char)
deriving DecidableEq

/-- Outcome of the authoritative metadata lookup cloudinary.api.resource. -/
inductive ApiOutcome where
  | ok (secure_url : List Char) (public_id : List Char)
  | fail
deriving DecidableEq

/-- Outcome of one HEAD request against a candidate URL: 2xx response,
non-ok response, or a network-level fault (the fetch throws). -/
inductive HeadOutcome where
  | ok
  | notOk
  | err
deriving DecidableEq

/-- Base public URL built for a public id (cloudinary.js lines 54-56). -/
def cloudBase (cloudName publicId : List Char) : List Char :=
  ("https://res.cloudinary.com/").data ++ cloudName
    ++ ("/image/upload/").data ++ publicId

/-- The ordered candidate URL list of fetchResource: no extension, then
.jpg, then .png (cloudinary.js lines 53-57). -/
def urlFormats (cloudName publicId : List Char) : List (List Char) :=
  [cloudBase cloudName publicId,
   cloudBase cloudName publicId ++ (".jpg").data,
   cloudBase cloudName publicId ++ (".png").data]

/-- The for-loop of fetchResource over candidate URLs: return on the first
ok response; a non-ok response or a thrown fetch both continue to the next
URL (cloudinary.js lines 59-82). -/
def probeUrls (head : List Char → HeadOutcome) (publicId : List Char) :
    List (List Char) → ProbeResult
  | [] => ⟨false, none, none⟩
  | u :: us =>
    match head u with
    | HeadOutcome.ok => ⟨true, some u, some publicId⟩
    | _ => probeUrls head publicId us

/-- Model of fetchResource (cloudinary.js lines 35-99): authoritative API
lookup first; on its failure, the URL probe ladder; total function — every
fault degrades to an exists=false result. -/
def fetchResource (api : List Char → ApiOutcome)
    (head : List Char → HeadOutcome)
    (cloudName publicId : List Char) : ProbeResult :=
  match api publicId with
  | ApiOutcome.ok su pid => ⟨true, some su, some pid⟩
  | ApiOutcome.fail => probeUrls head publicId (urlFormats cloudName publicId)

/-- Successful response of cloudinary.uploader.upload. -/
structure UploadResult where
  secure_url : List Char
  public_id : List Char
deriving DecidableEq

/-- The public id derivation of uploadImage (cloudinary.js line 24):
originalName.split with separator dot, element 0. -/
def publicIdOf (originalName : List Char) : List Char :=
  jsFirst '.' originalName

/-- Model of uploadImage (cloudinary.js lines 19-32): calls the uploader
with the derived public id; a thrown SDK error (none) is rethrown to the
caller. -/
def uploadImage (uploader : List Char → List Char → Option UploadResult)
    (filePath originalName : List Char) : Option UploadResult :=
  uploader filePath (publicIdOf originalName)

/-- Outcome of fs.promises.stat for one scanned file: success with size and
birthtime, or a thrown error (file vanished between readdir and stat). -/
inductive StatOutcome where
  | ok (size : Nat) (birthtime : Nat)
  | err
deriving DecidableEq

/-- One record of the GET /local-images response (index.js lines 179-228).
Fields absent from the catch-path record are modelled as none. -/
structure ImageRecord where
  id : List Char
  filename : List Char
  originalName : List Char
  size : Option Nat
  createdAt : Option Nat
  cloudinaryUrl : Option (List Char)
  cloudinaryPublicId : Option (List Char)
  status : String
  canRestore : Bool
deriving DecidableEq

/-- The record returned by the per-file catch block (index.js lines
219-228): basic info only, status missing, canRestore true. -/
def catchRecord (filename : List Char) : ImageRecord :=
  { id := filename, filename := filename, originalName := filename,
    size := none, createdAt := none,
    cloudinaryUrl := none, cloudinaryPublicId := none,
    status := "missing", canRestore := true }

/-- The fall-through record of the per-file map (index.js lines 204-215),
built from the primary probe result and the local readability check. -/
def commonRecord (filename : List Char) (size birthtime : Nat)
    (r1 : ProbeResult) (localReadable : Bool) : ImageRecord :=
  { id := filename, filename := filename, originalName := filename,
    size := some size, createdAt := some birthtime,
    cloudinaryUrl := r1.url, cloudinaryPublicId := r1.publicId,
    status := if r1.exists_ then "available" else "missing",
    canRestore := !r1.exists_ && localReadable }

/-- The early-return record built when only the timestamp-included
candidate is found remotely (index.js lines 179-190). -/
def timestampRecord (filename : List Char) (size birthtime : Nat)
    (r2 : ProbeResult) : ImageRecord :=
  { id := filename, filename := filename, originalName := filename,
    size := some size, createdAt := some birthtime,
    cloudinaryUrl := r2.url, cloudinaryPublicId := r2.publicId,
    status := "available", canRestore := false }

/-- Per-file processing of the GET /local-images handler (index.js lines
152-230), parametrised by the remote probe (fetchResource), the stat
outcome and the local readability check.  Returns the produced record
together with the ordered list of identifiers probed remotely. -/
def processOneFile (probe : List Char → ProbeResult) (stat : StatOutcome)
    (localReadable : Bool) (filename : List Char) :
    ImageRecord × List (List Char) :=
  match stat with
  | StatOutcome.err => (catchRecord filename, [])
  | StatOutcome.ok size birthtime =>
    let parts := jsSplit '-' filename
    let rest := jsJoin '-' (parts.drop 1)
    let publicId := jsFirst '.' rest
    let r1 := probe publicId
    if r1.exists_ then
      (commonRecord filename size birthtime r1 localReadable, [publicId])
    else
      let cand2 := jsFirst '.' filename
      let r2 := probe cand2
      if r2.exists_ then
        (timestampRecord filename size birthtime r2, [publicId, cand2])
      else
        (commonRecord filename size birthtime r1 localReadable,
         [publicId, cand2])

/-- The recognized image extensions of the list filter (index.js line 236). -/
def imageExts : List (List Char) :=
  [(".jpg").data, (".jpeg").data, (".png").data, (".gif").data,
   (".webp").data]

/-- The extension filter predicate (index.js lines 234-237):
path.extname of the record's filename, lowercased, must be recognized. -/
def recognizedExt (filename : List Char) : Bool :=
  imageExts.contains ((extname filename).map Char.toLower)

/-- The GET /local-images handler body (index.js lines 148-240): map the
per-file processing over the directory contents, then keep only records
whose filename has a recognized image extension.  The environment oracle
gives each file its stat outcome and readability. -/
def listImages (probe : List Char → ProbeResult)
    (env : List Char → StatOutcome × Bool)
    (files : List (List Char)) : List ImageRecord :=
  (files.map (fun fn => (processOneFile probe (env fn).1 (env fn).2 fn).1)).filter
    (fun img => recognizedExt img.filename)

/-- The multer-provided file of a POST /upload request. -/
structure FileInfo where
  filename : List Char
  originalname : List Char
  size : Nat
deriving DecidableEq

/-- The success response body of POST /upload (index.js lines 102-112). -/
structure UploadRecord where
  id : List Char
  filename : List Char
  originalName : List Char
  cloudinaryUrl : Option (List Char)
  cloudinaryPublicId : Option (List Char)
  size : Nat
  status : String
deriving DecidableEq

/-- The response of the POST /upload handler. -/
inductive UploadResponse where
  | ok (image : UploadRecord)
  | badRequest
  | storageFault
  | uploadFailed
deriving DecidableEq

/-- Observable outcome of one POST /upload request: the response, whether
the locally written file remains on disk afterwards, the number of remote
upload attempts made, and the backoff waits (in milliseconds) performed
between attempts, in order. -/
structure UploadOutcome where
  response : UploadResponse
  localFileRemains : Bool
  attemptsMade : Nat
  waits : List Nat
deriving DecidableEq

/-- The retry loop of the POST /upload handler (index.js lines 80-99).
remaining is maxRetries minus retryCount; attempts gives the outcome of
the 0-indexed remote upload attempt (none models a thrown error).  After a
failed attempt the code increments retryCount, throws when it reaches
maxRetries, and otherwise waits 1000 * retryCount milliseconds. -/
def retryLoop (attempts : Nat → Option UploadResult) :
    Nat → Nat → Option UploadResult × Nat × List Nat
  | 0, _ => (none, 0, [])
  | Nat.succ rem, retryCount =>
    match attempts retryCount with
    | some r => (some r, 1, [])
    | none =>
      if rem = 0 then (none, 1, [])
      else
        let out := retryLoop attempts rem (retryCount + 1)
        (out.1, out.2.1 + 1, (1000 * (retryCount + 1)) :: out.2.2)

/-- The success response object of POST /upload (index.js lines 102-112). -/
def mkUploadRecord (f : FileInfo) (r : UploadResult) : UploadRecord :=
  { id := f.filename, filename := f.filename,
    originalName := f.originalname,
    cloudinaryUrl := some r.secure_url,
    cloudinaryPublicId := some r.public_id,
    size := f.size, status := "available" }

/-- The POST /upload handler (index.js lines 56-133): reject a missing
file, fail when the local write did not land, otherwise run the bounded
retry loop; on retry exhaustion the catch block attempts a best-effort
unlink of the local file before sending the failure response.  unlinkOk
tells whether that fs.unlinkSync call succeeds: its own failure is only
logged (index.js lines 123-125), the local file then remains and the
failure response is sent regardless. -/
def uploadHandler (file? : Option FileInfo) (savedLocally : Bool)
    (attempts : Nat → Option UploadResult) (unlinkOk : Bool) :
    UploadOutcome :=
  match file? with
  | none => ⟨UploadResponse.badRequest, false, 0, []⟩
  | some f =>
    if savedLocally then
      match retryLoop attempts 3 0 with
      | (some r, n, ws) => ⟨UploadResponse.ok (mkUploadRecord f r), true, n, ws⟩
      | (none, n, ws) => ⟨UploadResponse.uploadFailed, !unlinkOk, n, ws⟩
    else ⟨UploadResponse.storageFault, false, 0, []⟩

/-- The data object of a successful POST /restore response (index.js lines
280-285). -/
structure RestoreData where
  filename : List Char
  cloudinaryUrl : List Char
  cloudinaryPublicId : List Char
  status : String
deriving DecidableEq

/-- The response of the POST /restore handler. -/
inductive RestoreResponse where
  | ok (data : RestoreData)
  | notFound
  | serverError
deriving DecidableEq

/-- The local path the restore handler builds for a filename (index.js
line 263). -/
def localPathOf (filename : List Char) : List Char :=
  ("uploads/").data ++ filename

/-- The POST /restore handler (index.js lines 257-291): 404 without any
remote call when the local file is absent; otherwise one uploadImage call
with the full filename as the name the public id is derived from.  The
second component counts the remote-store calls performed. -/
def restoreHandler (uploader : List Char → List Char → Option UploadResult)
    (localExists : Bool) (filename : List Char) :
    RestoreResponse × Nat :=
  if localExists then
    match uploadImage uploader (localPathOf filename) filename with
    | some r =>
      (RestoreResponse.ok
        { filename := filename, cloudinaryUrl := r.secure_url,
          cloudinaryPublicId := r.public_id, status := "available" }, 1)
    | none => (RestoreResponse.serverError, 1)
  else (RestoreResponse.notFound, 0)

/-- A remote store holding exactly the given public ids; the probe reports
existence by membership. -/
def storeProbe (store : List (List Char)) (id : List Char) : ProbeResult :=
  if id ∈ store then ⟨true, some id, some id⟩ else ⟨false, none, none⟩

/-- Modelled from the spec (not the source): drop the filename's
extension, the last-dot suffix that extname computes. -/
def stripExt (s : List Char) : List Char :=
  s.take (s.length - (extname s).length)

/-- Modelled from the spec (not the source): the specified primary
candidate — everything after the first dash, with the extension
stripped. -/
def specCandidateA (filename : List Char) : List Char :=
  stripExt ((filename.dropWhile (fun c => c ≠ '-')).drop 1)

/-- Modelled from the spec (not the source): the specified fallback
candidate — the full filename minus its extension. -/
def specCandidateB (filename : List Char) : List Char :=
  stripExt filename

/-! Algebra of the JS split/join model. -/

theorem jsSplit_ne_nil (sep : Char) (l : List Char) : jsSplit sep l ≠ [] := by
  cases l with
  | nil => simp [jsSplit]
  | cons c cs =>
    cases h : jsSplit sep cs with
    | nil => simp [jsSplit, h]
    | cons r rs =>
      by_cases hc : c = sep <;> simp [jsSplit, h, hc]

theorem jsSplit_cons_self (sep : Char) (l : List Char) :
    jsSplit sep (sep :: l) = [] :: jsSplit sep l := by
  cases h : jsSplit sep l with
  | nil => exact absurd h (jsSplit_ne_nil sep l)
  | cons r rs => simp [jsSplit, h]

theorem jsSplit_cons_of_ne (sep c : Char) (l : List Char) (h : c ≠ sep) :
    jsSplit sep (c :: l) =
      (c :: (jsSplit sep l).headD []) :: (jsSplit sep l).tail := by
  cases h' : jsSplit sep l with
  | nil => exact absurd h' (jsSplit_ne_nil sep l)
  | cons r rs => simp [jsSplit, h', h]

theorem jsSplit_append (sep : Char) (xs l : List Char) (h : sep ∉ xs) :
    jsSplit sep (xs ++ l) =
      (xs ++ (jsSplit sep l).headD []) :: (jsSplit sep l).tail := by
  induction xs with
  | nil =>
    cases h' : jsSplit sep l with
    | nil => exact absurd h' (jsSplit_ne_nil sep l)
    | cons r rs => simp [h']
  | cons c cs ih =>
    have hc : c ≠ sep := fun hceq => h (by simp [hceq])
    have hcs : sep ∉ cs := fun hmem => h (List.mem_cons_of_mem _ hmem)
    have step := jsSplit_cons_of_ne sep c (cs ++ l) hc
    rw [List.cons_append, step, ih hcs]
    simp

theorem jsSplit_sep_append (sep : Char) (xs l : List Char) (h : sep ∉ xs) :
    jsSplit sep (xs ++ sep :: l) = xs :: jsSplit sep l := by
  rw [jsSplit_append sep xs (sep :: l) h, jsSplit_cons_self]
  simp

theorem jsFirst_append (sep : Char) (xs l : List Char) (h : sep ∉ xs) :
    jsFirst sep (xs ++ l) = xs ++ jsFirst sep l := by
  unfold jsFirst
  rw [jsSplit_append sep xs l h]
  simp

theorem jsFirst_sep_append (sep : Char) (xs l : List Char) (h : sep ∉ xs) :
    jsFirst sep (xs ++ sep :: l) = xs := by
  unfold jsFirst
  rw [jsSplit_sep_append sep xs l h]
  simp

theorem jsFirst_of_not_mem (sep : Char) (xs : List Char) (h : sep ∉ xs) :
    jsFirst sep xs = xs := by
  have := jsFirst_append sep xs [] h
  simpa [jsFirst, jsSplit] using this

theorem jsJoin_jsSplit (sep : Char) (l : List Char) :
    jsJoin sep (jsSplit sep l) = l := by
  induction l with
  | nil => simp [jsSplit, jsJoin]
  | cons c cs ih =>
    cases h : jsSplit sep cs with
    | nil => exact absurd h (jsSplit_ne_nil sep cs)
    | cons r rs =>
      by_cases hc : c = sep
      · rw [hc, jsSplit_cons_self, h]
        show ([] : List Char) ++ sep :: jsJoin sep (r :: rs) = sep :: cs
        rw [← h, ih]
        simp
      · rw [jsSplit_cons_of_ne sep c cs hc, h]
        cases rs with
        | nil =>
          rw [h] at ih
          simp [jsJoin] at ih ⊢
          exact ih
        | cons s ss =>
          rw [h] at ih
          simp only [List.headD_cons, List.tail_cons, jsJoin] at ih ⊢
          rw [List.cons_append, ih]

/-- The primary candidate of the resolver: the filename split on dashes,
first component dropped and rejoined, then truncated at the first dot
(index.js lines 158-161). -/
theorem resolver_primary_candidate (ts rest : List Char) (h : '-' ∉ ts) :
    jsFirst '.' (jsJoin '-' ((jsSplit '-' (ts ++ '-' :: rest)).drop 1))
      = jsFirst '.' rest := by
  rw [jsSplit_sep_append '-' ts rest h]
  simp [jsJoin_jsSplit]

/-- The fallback candidate of the resolver: the whole filename truncated at
the first dot (index.js line 176). -/
theorem resolver_fallback_candidate (ts rest : List Char) (h : '.' ∉ ts) :
    jsFirst '.' (ts ++ '-' :: rest) = ts ++ '-' :: jsFirst '.' rest := by
  rw [jsFirst_append '.' ts ('-' :: rest) h]
  have hd : ('-' : Char) ≠ '.' := by decide
  unfold jsFirst
  rw [jsSplit_cons_of_ne '.' '-' rest hd]
  simp [jsFirst]

/-- The identifiers the per-file processing probes remotely, as a function
of the primary probe's answer, for a filename with a dash after a dash-free
dot-free timestamp part. -/
theorem processOneFile_trace (probe : List Char → ProbeResult)
    (s b : Nat) (rd : Bool) (ts rest : List Char)
    (h1 : '-' ∉ ts) (h2 : '.' ∉ ts) :
    (processOneFile probe (StatOutcome.ok s b) rd (ts ++ '-' :: rest)).2 =
      if (probe (jsFirst '.' rest)).exists_ then [jsFirst '.' rest]
      else [jsFirst '.' rest, ts ++ '-' :: jsFirst '.' rest] := by
  simp only [processOneFile]
  rw [resolver_primary_candidate ts rest h1,
      resolver_fallback_candidate ts rest h2]
  cases hp : (probe (jsFirst '.' rest)).exists_ <;>
    cases hq : (probe (ts ++ '-' :: jsFirst '.' rest)).exists_ <;>
      simp [hp, hq]

/-- The record the per-file processing produces, as a function of the two
probe answers, for a filename with a dash after a dash-free dot-free
timestamp part. -/
theorem processOneFile_record (probe : List Char → ProbeResult)
    (s b : Nat) (rd : Bool) (ts rest : List Char)
    (h1 : '-' ∉ ts) (h2 : '.' ∉ ts) :
    (processOneFile probe (StatOutcome.ok s b) rd (ts ++ '-' :: rest)).1 =
      if (probe (jsFirst '.' rest)).exists_ then
        commonRecord (ts ++ '-' :: rest) s b (probe (jsFirst '.' rest)) rd
      else if (probe (ts ++ '-' :: jsFirst '.' rest)).exists_ then
        timestampRecord (ts ++ '-' :: rest) s b
          (probe (ts ++ '-' :: jsFirst '.' rest))
      else
        commonRecord (ts ++ '-' :: rest) s b (probe (jsFirst '.' rest)) rd := by
  simp only [processOneFile]
  rw [resolver_primary_candidate ts rest h1,
      resolver_fallback_candidate ts rest h2]
  cases hp : (probe (jsFirst '.' rest)).exists_ <;>
    cases hq : (probe (ts ++ '-' :: jsFirst '.' rest)).exists_ <;>
      simp [hp, hq]

/-- The filename field of every record the per-file processing produces is
the scanned filename, on every path. -/
theorem processOneFile_filename (probe : List Char → ProbeResult)
    (st : StatOutcome) (rd : Bool) (fn : List Char) :
    (processOneFile probe st rd fn).1.filename = fn := by
  cases st with
  | err => simp [processOneFile, catchRecord]
  | ok s b =>
    simp only [processOneFile]
    split
    · simp [commonRecord]
    · split
      · simp [timestampRecord]
      · simp [commonRecord]

/-- The fully unrolled retry loop at maxRetries 3 (index.js lines 80-99). -/
theorem retryLoop_three (attempts : Nat → Option UploadResult) :
    retryLoop attempts 3 0 =
      match attempts 0 with
      | some r => (some r, 1, [])
      | none =>
        match attempts 1 with
        | some r => (some r, 2, [1000])
        | none =>
          match attempts 2 with
          | some r => (some r, 3, [1000, 2000])
          | none => (none, 3, [1000, 2000]) := by
  rcases h0 : attempts 0 with _ | r0 <;>
    rcases h1 : attempts 1 with _ | r1 <;>
      rcases h2 : attempts 2 with _ | r2 <;>
        simp [retryLoop, h0, h1, h2]

/-- The URL probe loop returns the result for the first candidate URL whose
HEAD request answers ok, and degrades to a not-exists result when no
candidate answers ok (a thrown fetch counts as not ok). -/
theorem probeUrls_eq_find (head : List Char → HeadOutcome)
    (publicId : List Char) (urls : List (List Char)) :
    probeUrls head publicId urls =
      match urls.find? (fun u => head u == HeadOutcome.ok) with
      | some u => ⟨true, some u, some publicId⟩
      | none => ⟨false, none, none⟩ := by
  induction urls with
  | nil => simp [probeUrls]
  | cons u us ih =>
    cases h : head u with
    | ok =>
      simp [probeUrls, List.find?, h,
        show (HeadOutcome.ok == HeadOutcome.ok) = true from by decide]
    | notOk =>
      simp [probeUrls, List.find?, h, ih,
        show (HeadOutcome.notOk == HeadOutcome.ok) = false from by decide]
    | err =>
      simp [probeUrls, List.find?, h, ih,
        show (HeadOutcome.err == HeadOutcome.ok) = false from by decide]

/-! Claim theorems. -/

/-- C1 counterexample: when every remote attempt throws and the
best-effort unlink of the catch block also throws, the handler reports a
failure while the locally stored file still remains on disk, so a
reported failure does not guarantee that no local file is left behind. -/
theorem upload_rollback_counterexample :
    (uploadHandler (some ⟨("1-a.jpg").data, ("a.jpg").data, 5⟩) true
        (fun _ => none) false).response = UploadResponse.uploadFailed ∧
    (uploadHandler (some ⟨("1-a.jpg").data, ("a.jpg").data, 5⟩) true
        (fun _ => none) false).localFileRemains = true := by
  decide

/-- C1 (amended): for every upload request with a valid image the handler
either returns a record with status available and a non-null remote URL,
or it reports a failure after a best-effort deletion of the locally
stored file: whenever the unlink succeeds no local file remains, while an
unlink failure is only logged and the failure response is still
returned. -/
theorem upload_success_or_best_effort_rollback (f : FileInfo) (saved : Bool)
    (attempts : Nat → Option UploadResult) (unlinkOk : Bool) :
    (∃ img, (uploadHandler (some f) saved attempts unlinkOk).response =
        UploadResponse.ok img ∧
      img.status = "available" ∧ img.cloudinaryUrl.isSome = true) ∨
    (((uploadHandler (some f) saved attempts unlinkOk).response =
        UploadResponse.storageFault ∨
      (uploadHandler (some f) saved attempts unlinkOk).response =
        UploadResponse.uploadFailed) ∧
      (unlinkOk = true →
        (uploadHandler (some f) saved attempts unlinkOk).localFileRemains =
          false)) := by
  cases saved with
  | false => right; simp [uploadHandler]
  | true =>
    rcases hr : retryLoop attempts 3 0 with ⟨_ | r, n, ws⟩
    · right
      refine ⟨by simp [uploadHandler, hr], ?_⟩
      intro hu
      simp [uploadHandler, hr, hu]
    · left
      exact ⟨mkUploadRecord f r,
        by simp [uploadHandler, hr], by simp [mkUploadRecord],
        by simp [mkUploadRecord]⟩

/-- C1 (amended) witness: with every remote attempt throwing and a
succeeding unlink, the concrete request reports a failure with no local
file remaining. -/
theorem upload_success_or_best_effort_rollback_witness :
    (∃ img, (uploadHandler (some ⟨("1-a.jpg").data, ("a.jpg").data, 5⟩) true
        (fun _ => none) true).response = UploadResponse.ok img ∧
      img.status = "available" ∧ img.cloudinaryUrl.isSome = true) ∨
    (((uploadHandler (some ⟨("1-a.jpg").data, ("a.jpg").data, 5⟩) true
        (fun _ => none) true).response = UploadResponse.storageFault ∨
      (uploadHandler (some ⟨("1-a.jpg").data, ("a.jpg").data, 5⟩) true
        (fun _ => none) true).response = UploadResponse.uploadFailed) ∧
      (true = true →
        (uploadHandler (some ⟨("1-a.jpg").data, ("a.jpg").data, 5⟩) true
          (fun _ => none) true).localFileRemains = false)) :=
  upload_success_or_best_effort_rollback ⟨("1-a.jpg").data, ("a.jpg").data, 5⟩
    true (fun _ => none) true

/-- C4: the remote upload is attempted at most 3 times; when the first two
attempts fail and the third succeeds the request succeeds with the local
file kept on disk after waiting 1x1000 then 2x1000 milliseconds between
attempts; and a failure response happens only after three failed
attempts. -/
theorem upload_retry_bounded_backoff (f : FileInfo)
    (attempts : Nat → Option UploadResult) (unlinkOk : Bool) :
    (uploadHandler (some f) true attempts unlinkOk).attemptsMade ≤ 3 ∧
    (∀ r, attempts 0 = none → attempts 1 = none → attempts 2 = some r →
      uploadHandler (some f) true attempts unlinkOk =
        ⟨UploadResponse.ok (mkUploadRecord f r), true, 3,
         [1000 * 1, 1000 * 2]⟩) ∧
    ((uploadHandler (some f) true attempts unlinkOk).response =
        UploadResponse.uploadFailed →
      attempts 0 = none ∧ attempts 1 = none ∧ attempts 2 = none ∧
        (uploadHandler (some f) true attempts unlinkOk).attemptsMade = 3 ∧
        (uploadHandler (some f) true attempts unlinkOk).waits =
          [1000 * 1, 1000 * 2]) := by
  refine ⟨?_, ?_, ?_⟩
  · rcases h0 : attempts 0 with _ | r0 <;>
      rcases h1 : attempts 1 with _ | r1 <;>
        rcases h2 : attempts 2 with _ | r2 <;>
          simp [uploadHandler, retryLoop_three, h0, h1, h2]
  · intro r ha0 ha1 ha2
    simp [uploadHandler, retryLoop_three, ha0, ha1, ha2]
  · intro hresp
    rcases h0 : attempts 0 with _ | r0 <;>
      rcases h1 : attempts 1 with _ | r1 <;>
        rcases h2 : attempts 2 with _ | r2 <;>
          simp_all [uploadHandler, retryLoop_three]

/-- C4 witness: with the first two attempts failing and the third
succeeding, the concrete request succeeds, keeps the local file, makes 3
attempts and waits 1000 then 2000 milliseconds. -/
theorem upload_retry_bounded_backoff_witness :
    uploadHandler (some ⟨("1-f.jpg").data, ("f.jpg").data, 10⟩) true
        (fun n => if n = 2 then
          some ⟨("u").data, ("p").data⟩ else none) true =
      ⟨UploadResponse.ok (mkUploadRecord ⟨("1-f.jpg").data, ("f.jpg").data, 10⟩
          ⟨("u").data, ("p").data⟩), true, 3, [1000 * 1, 1000 * 2]⟩ :=
  (upload_retry_bounded_backoff _ _ true).2.1 ⟨("u").data, ("p").data⟩
    rfl rfl rfl

/-- C2 counterexample: for the dotted local filename 1699-my.photo.png
the scan probes my and then 1699-my — the truncations at the first dot —
and not the specified extension-stripped candidates my.photo and
1699-my.photo, so the claim fails for names containing dots. -/
theorem resolver_candidate_order_counterexample :
    specCandidateA (("1699-my.photo.png").data) = ("my.photo").data ∧
    specCandidateB (("1699-my.photo.png").data) = ("1699-my.photo").data ∧
    (processOneFile (storeProbe []) (StatOutcome.ok 1 2) true
        (("1699-my.photo.png").data)).2 =
      [("my").data, ("1699-my").data] ∧
    ("my").data ≠ ("my.photo").data ∧
    ("1699-my").data ≠ ("1699-my.photo").data := by
  decide

/-- C2 (amended): for a local filename ts-name.ext whose name part is
dot-free (and whose timestamp part is dash- and dot-free), the list
handler first probes the remote store with candidate name and, exactly
when that probe reports not-exists, probes with candidate ts-name, in
that order; for names containing dots the code instead probes the
truncations at the first dot (see the counterexample). -/
theorem resolver_candidate_order (probe : List Char → ProbeResult)
    (s b : Nat) (rd : Bool) (ts name ext : List Char)
    (h1 : '-' ∉ ts) (h2 : '.' ∉ ts) (h3 : '.' ∉ name) :
    (processOneFile probe (StatOutcome.ok s b) rd
        (ts ++ '-' :: (name ++ '.' :: ext))).2 =
      if (probe name).exists_ then [name]
      else [name, ts ++ '-' :: name] := by
  have hname : jsFirst '.' (name ++ '.' :: ext) = name :=
    jsFirst_sep_append '.' name ext h3
  rw [processOneFile_trace probe s b rd ts (name ++ '.' :: ext) h1 h2, hname]

/-- C2 witness: for the file 123-photo.jpg scanned against an empty remote
store, the probe trace is exactly photo then 123-photo. -/
theorem resolver_candidate_order_witness :
    (processOneFile (storeProbe []) (StatOutcome.ok 4 5) true
        (("123").data ++ '-' :: (("photo").data ++ '.' :: ("jpg").data))).2 =
      if (storeProbe [] (("photo").data)).exists_ then [("photo").data]
      else [("photo").data, ("123").data ++ '-' :: ("photo").data] :=
  resolver_candidate_order (storeProbe []) 4 5 true _ _ _
    (by decide) (by decide) (by decide)

/-- C3: the remote existence probe consults the authoritative metadata
lookup first; on its failure it probes the candidate URLs (identifier with
no extension, then .jpg, then .png) and returns the first that answers ok;
when the lookup fails and no candidate answers ok (including network-level
faults on every probe) it returns exists false with null url and public id
instead of raising. -/
theorem fetchResource_probe_ladder (api : List Char → ApiOutcome)
    (head : List Char → HeadOutcome) (cloudName publicId : List Char) :
    (∀ su pid, api publicId = ApiOutcome.ok su pid →
      fetchResource api head cloudName publicId =
        ⟨true, some su, some pid⟩) ∧
    (api publicId = ApiOutcome.fail →
      fetchResource api head cloudName publicId =
        match (urlFormats cloudName publicId).find?
            (fun u => head u == HeadOutcome.ok) with
        | some u => ⟨true, some u, some publicId⟩
        | none => ⟨false, none, none⟩) ∧
    ((api publicId = ApiOutcome.fail ∧
        ∀ u ∈ urlFormats cloudName publicId, head u ≠ HeadOutcome.ok) →
      fetchResource api head cloudName publicId = ⟨false, none, none⟩) := by
  refine ⟨?_, ?_, ?_⟩
  · intro su pid h
    simp [fetchResource, h]
  · intro h
    simp [fetchResource, h, probeUrls_eq_find]
  · rintro ⟨h, hall⟩
    have hnone : (urlFormats cloudName publicId).find?
        (fun u => head u == HeadOutcome.ok) = none := by
      rw [List.find?_eq_none]
      intro u hu
      simpa using hall u hu
    simp [fetchResource, h, probeUrls_eq_find, hnone]

/-- C3 witness: with a failing metadata lookup and every HEAD probe
throwing a network fault, the probe returns exists false with null url and
public id. -/
theorem fetchResource_probe_ladder_witness :
    fetchResource (fun _ => ApiOutcome.fail) (fun _ => HeadOutcome.err)
        (("demo").data) (("pid").data) = ⟨false, none, none⟩ :=
  (fetchResource_probe_ladder (fun _ => ApiOutcome.fail)
      (fun _ => HeadOutcome.err) (("demo").data) (("pid").data)).2.2
    ⟨rfl, fun u _ => by decide⟩

/-- C5: a file whose per-file processing hits an unexpected fault (its
stat throws) still yields a record with status missing and canRestore
true, and when its extension is recognized the record appears in the list
output rather than being dropped. -/
theorem fault_file_fail_open (probe : List Char → ProbeResult)
    (env : List Char → StatOutcome × Bool) (files : List (List Char))
    (fn : List Char) (hstat : (env fn).1 = StatOutcome.err)
    (hmem : fn ∈ files) (hext : recognizedExt fn = true) :
    (processOneFile probe (env fn).1 (env fn).2 fn).1.status = "missing" ∧
    (processOneFile probe (env fn).1 (env fn).2 fn).1.canRestore = true ∧
    (processOneFile probe (env fn).1 (env fn).2 fn).1 ∈
      listImages probe env files := by
  refine ⟨by rw [hstat]; simp [processOneFile, catchRecord],
    by rw [hstat]; simp [processOneFile, catchRecord], ?_⟩
  unfold listImages
  refine List.mem_filter.mpr ⟨List.mem_map.mpr ⟨fn, hmem, rfl⟩, ?_⟩
  rw [processOneFile_filename]
  simpa using hext

/-- C5 witness: a file deleted between readdir and stat, scanned against
an empty remote store, still appears as missing and restorable. -/
theorem fault_file_fail_open_witness :
    (processOneFile (storeProbe [])
        ((fun _ => (StatOutcome.err, false)) (("a.jpg").data)).1
        ((fun _ => (StatOutcome.err, false)) (("a.jpg").data)).2
        (("a.jpg").data)).1.status = "missing" ∧
    (processOneFile (storeProbe [])
        ((fun _ => (StatOutcome.err, false)) (("a.jpg").data)).1
        ((fun _ => (StatOutcome.err, false)) (("a.jpg").data)).2
        (("a.jpg").data)).1.canRestore = true ∧
    (processOneFile (storeProbe [])
        ((fun _ => (StatOutcome.err, false)) (("a.jpg").data)).1
        ((fun _ => (StatOutcome.err, false)) (("a.jpg").data)).2
        (("a.jpg").data)).1 ∈
      listImages (storeProbe []) (fun _ => (StatOutcome.err, false))
        [("a.jpg").data] :=
  fault_file_fail_open (storeProbe []) (fun _ => (StatOutcome.err, false))
    [("a.jpg").data] (("a.jpg").data) rfl (by simp) (by decide)

/-- Every record the per-file processing produces is a catch-path record,
a timestamp-candidate record, or a fall-through record. -/
theorem processOneFile_shape (probe : List Char → ProbeResult)
    (st : StatOutcome) (rd : Bool) (fn : List Char) :
    (processOneFile probe st rd fn).1 = catchRecord fn ∨
    (∃ s b r, (processOneFile probe st rd fn).1 = timestampRecord fn s b r) ∨
    (∃ s b r, (processOneFile probe st rd fn).1 = commonRecord fn s b r rd) := by
  cases st with
  | err => left; simp [processOneFile]
  | ok s b =>
    simp only [processOneFile]
    split
    · right; right; exact ⟨s, b, _, rfl⟩
    · split
      · right; left; exact ⟨s, b, _, rfl⟩
      · right; right; exact ⟨s, b, _, rfl⟩

/-- C6 counterexample: the claimed equivalence (canRestore true exactly
when status is missing and the local file is readable) fails on the
fault-path record: here the scanned file's stat throws and the file is not
readable (the readability input is false, rendered below as the
proposition False), yet the produced record has canRestore true. -/
theorem canRestore_iff_counterexample :
    ¬ (((processOneFile (storeProbe []) StatOutcome.err false
          (("a.jpg").data)).1.canRestore = true) ↔
       (((processOneFile (storeProbe []) StatOutcome.err false
          (("a.jpg").data)).1.status = "missing") ∧ False)) := by
  decide

/-- C6 (amended): for records produced without a per-file fault,
canRestore is true exactly when the status is missing and the local file
is readable; every record with status available has canRestore false; and
fault-path records are always missing with canRestore true regardless of
readability. -/
theorem canRestore_iff_status (probe : List Char → ProbeResult)
    (s b : Nat) (rd : Bool) (fn : List Char) (st : StatOutcome) :
    ((processOneFile probe (StatOutcome.ok s b) rd fn).1.canRestore = true ↔
      ((processOneFile probe (StatOutcome.ok s b) rd fn).1.status =
          "missing" ∧ rd = true)) ∧
    ((processOneFile probe st rd fn).1.status = "available" →
      (processOneFile probe st rd fn).1.canRestore = false) ∧
    ((processOneFile probe StatOutcome.err rd fn).1.status = "missing" ∧
      (processOneFile probe StatOutcome.err rd fn).1.canRestore = true) := by
  have havail : ("available" : String) ≠ "missing" := by decide
  have hmiss : ("missing" : String) ≠ "available" := by decide
  refine ⟨?_, ?_, ?_⟩
  · simp only [processOneFile]
    split
    · rename_i hx
      simp [commonRecord, hx, havail]
    · rename_i hx
      split
      · simp [timestampRecord, havail]
      · rename_i hy
        simp only [Bool.not_eq_true] at hx
        simp [commonRecord, hx]
  · intro hav
    rcases processOneFile_shape probe st rd fn with hsh | ⟨s', b', r, hsh⟩ |
        ⟨s', b', r, hsh⟩
    · rw [hsh] at hav
      simp [catchRecord] at hav
    · rw [hsh]
      simp [timestampRecord]
    · rw [hsh] at hav ⊢
      cases hre : r.exists_ with
      | false => simp [commonRecord, hre] at hav
      | true => simp [commonRecord, hre]
  · simp [processOneFile, catchRecord]

/-- C6 (amended) witness: for a concrete no-fault scan of a.jpg against a
store holding only the identifier a (found, so status available) the
record is not restorable, the equivalence holds, and the fault-path record
is missing and restorable. -/
theorem canRestore_iff_status_witness :
    (((processOneFile (storeProbe [("a").data]) (StatOutcome.ok 7 8) true
        (("a.jpg").data)).1.canRestore = true) ↔
      ((processOneFile (storeProbe [("a").data]) (StatOutcome.ok 7 8) true
        (("a.jpg").data)).1.status = "missing" ∧ true = true)) ∧
    (processOneFile (storeProbe [("a").data]) (StatOutcome.ok 7 8) true
        (("a.jpg").data)).1.canRestore = false ∧
    ((processOneFile (storeProbe [("a").data]) StatOutcome.err true
        (("a.jpg").data)).1.status = "missing" ∧
      (processOneFile (storeProbe [("a").data]) StatOutcome.err true
        (("a.jpg").data)).1.canRestore = true) :=
  ⟨(canRestore_iff_status (storeProbe [("a").data]) 7 8 true
      (("a.jpg").data) (StatOutcome.ok 7 8)).1,
   (canRestore_iff_status (storeProbe [("a").data]) 7 8 true
      (("a.jpg").data) (StatOutcome.ok 7 8)).2.1 (by decide),
   (canRestore_iff_status (storeProbe [("a").data]) 7 8 true
      (("a.jpg").data) (StatOutcome.ok 7 8)).2.2⟩

/-- C7: restore on a filename with no local file answers not-found and
performs zero remote-store calls; with the local file present the remote
upload runs exactly once (no retry), a success answers with status
available, and a thrown upload answers a server error. -/
theorem restore_not_found_or_single_upload
    (uploader : List Char → List Char → Option UploadResult)
    (fn : List Char) :
    restoreHandler uploader false fn = (RestoreResponse.notFound, 0) ∧
    (restoreHandler uploader true fn).2 = 1 ∧
    (∀ r, uploader (localPathOf fn) (publicIdOf fn) = some r →
      (restoreHandler uploader true fn).1 =
        RestoreResponse.ok
          { filename := fn, cloudinaryUrl := r.secure_url,
            cloudinaryPublicId := r.public_id, status := "available" }) ∧
    (uploader (localPathOf fn) (publicIdOf fn) = none →
      (restoreHandler uploader true fn).1 = RestoreResponse.serverError) := by
  refine ⟨rfl, ?_, ?_, ?_⟩
  · cases hu : uploader (localPathOf fn) (publicIdOf fn) <;>
      simp [restoreHandler, uploadImage, hu]
  · intro r hu
    simp [restoreHandler, uploadImage, hu]
  · intro hu
    simp [restoreHandler, uploadImage, hu]

/-- C7 witness: a concrete restore of 1-a.jpg with a succeeding uploader
answers status available, and with no local file answers not-found with
zero remote calls. -/
theorem restore_not_found_or_single_upload_witness :
    restoreHandler (fun _ _ => some ⟨("u").data, ("p").data⟩) false
        (("1-a.jpg").data) = (RestoreResponse.notFound, 0) ∧
    (restoreHandler (fun _ _ => some ⟨("u").data, ("p").data⟩) true
        (("1-a.jpg").data)).1 =
      RestoreResponse.ok
        { filename := ("1-a.jpg").data, cloudinaryUrl := ("u").data,
          cloudinaryPublicId := ("p").data, status := "available" } :=
  ⟨(restore_not_found_or_single_upload
      (fun _ _ => some ⟨("u").data, ("p").data⟩) (("1-a.jpg").data)).1,
   (restore_not_found_or_single_upload
      (fun _ _ => some ⟨("u").data, ("p").data⟩) (("1-a.jpg").data)).2.2.1
     ⟨("u").data, ("p").data⟩ rfl⟩

/-- C8: the list output is exactly the per-file records of the directory
entries whose filename extension (lowercased) is a recognized image
extension, and every record in the output has a recognized extension. -/
theorem list_extension_filter (probe : List Char → ProbeResult)
    (env : List Char → StatOutcome × Bool) (files : List (List Char)) :
    listImages probe env files =
      (files.filter (fun fn => recognizedExt fn)).map
        (fun fn => (processOneFile probe (env fn).1 (env fn).2 fn).1) ∧
    ∀ img ∈ listImages probe env files, recognizedExt img.filename = true := by
  constructor
  · unfold listImages
    induction files with
    | nil => simp
    | cons fn fs ih =>
      by_cases hr : recognizedExt fn = true <;>
        simp [List.filter_cons, processOneFile_filename, hr, ih]
  · intro img hmem
    exact (List.mem_filter.mp hmem).2

/-- C8 witness: scanning a directory holding a.txt and b.png yields only
the record of b.png, and the record of b.png present in that output has a
recognized extension. -/
theorem list_extension_filter_witness :
    (listImages (storeProbe []) (fun _ => (StatOutcome.ok 1 2, true))
        [("a.txt").data, ("b.png").data] =
      (([("a.txt").data, ("b.png").data].filter
          (fun fn => recognizedExt fn)).map
        (fun fn => (processOneFile (storeProbe [])
          ((fun _ => (StatOutcome.ok 1 2, true)) fn).1
          ((fun _ => (StatOutcome.ok 1 2, true)) fn).2 fn).1))) ∧
    recognizedExt (processOneFile (storeProbe [])
        ((fun _ => (StatOutcome.ok 1 2, true)) (("b.png").data)).1
        ((fun _ => (StatOutcome.ok 1 2, true)) (("b.png").data)).2
        (("b.png").data)).1.filename = true :=
  ⟨(list_extension_filter (storeProbe [])
      (fun _ => (StatOutcome.ok 1 2, true))
      [("a.txt").data, ("b.png").data]).1,
   (list_extension_filter (storeProbe [])
      (fun _ => (StatOutcome.ok 1 2, true))
      [("a.txt").data, ("b.png").data]).2
     ((processOneFile (storeProbe [])
        ((fun _ => (StatOutcome.ok 1 2, true)) (("b.png").data)).1
        ((fun _ => (StatOutcome.ok 1 2, true)) (("b.png").data)).2
        (("b.png").data)).1) (by decide)⟩

/-- C9 counterexample: for the original name my.photo.png, whose base
my.photo itself contains a dot, the derived remote identifier is my, not
the claimed base my.photo. -/
theorem upload_public_id_counterexample :
    publicIdOf (("my.photo.png").data) = ("my").data ∧
    ("my").data ≠ ("my.photo").data := by
  decide

/-- C9 (amended): the remote upload derives the identifier as everything
before the first dot of the original name; for a name base.ext this equals
base exactly when base itself is dot-free, and the uploader is invoked
with that identifier. -/
theorem upload_public_id_first_dot
    (uploader : List Char → List Char → Option UploadResult)
    (fp base ext : List Char) (h : '.' ∉ base) :
    publicIdOf (base ++ '.' :: ext) = base ∧
    uploadImage uploader fp (base ++ '.' :: ext) = uploader fp base := by
  have hb : jsFirst '.' (base ++ '.' :: ext) = base :=
    jsFirst_sep_append '.' base ext h
  refine ⟨hb, ?_⟩
  unfold uploadImage publicIdOf
  rw [hb]

/-- C9 (amended) witness: uploading img.png stores under identifier img. -/
theorem upload_public_id_first_dot_witness :
    publicIdOf (("img").data ++ '.' :: ("png").data) = ("img").data ∧
    uploadImage (fun _ _ => none) (("uploads/x").data)
        (("img").data ++ '.' :: ("png").data) =
      (fun _ _ => none) (("uploads/x").data) (("img").data) :=
  upload_public_id_first_dot (fun _ _ => none) (("uploads/x").data)
    (("img").data) (("png").data) (by decide)

/-- C10: the restore handler derives the remote identifier from the full
local filename, so a filename ts-name.ext is re-stored under ts-name,
which is exactly the resolver's fallback candidate, while a fresh upload
of name.ext stores under name; afterwards the list scan against a store
holding only ts-name probes name first (reported not-exists) and matches
only the second candidate ts-name, classifying the file available. -/
theorem restore_stores_fallback_candidate
    (uploader : List Char → List Char → Option UploadResult)
    (s b : Nat) (rd : Bool) (ts name ext : List Char)
    (h1 : '-' ∉ ts) (h2 : '.' ∉ ts) (h3 : '.' ∉ name) :
    publicIdOf (ts ++ '-' :: (name ++ '.' :: ext)) = ts ++ '-' :: name ∧
    uploadImage uploader (localPathOf (ts ++ '-' :: (name ++ '.' :: ext)))
        (ts ++ '-' :: (name ++ '.' :: ext)) =
      uploader (localPathOf (ts ++ '-' :: (name ++ '.' :: ext)))
        (ts ++ '-' :: name) ∧
    publicIdOf (name ++ '.' :: ext) = name ∧
    (storeProbe [ts ++ '-' :: name] name).exists_ = false ∧
    (processOneFile (storeProbe [ts ++ '-' :: name]) (StatOutcome.ok s b) rd
        (ts ++ '-' :: (name ++ '.' :: ext))).2 =
      [name, ts ++ '-' :: name] ∧
    (processOneFile (storeProbe [ts ++ '-' :: name]) (StatOutcome.ok s b) rd
        (ts ++ '-' :: (name ++ '.' :: ext))).1.status = "available" := by
  have hname : jsFirst '.' (name ++ '.' :: ext) = name :=
    jsFirst_sep_append '.' name ext h3
  have hfull : publicIdOf (ts ++ '-' :: (name ++ '.' :: ext)) =
      ts ++ '-' :: name := by
    unfold publicIdOf
    rw [resolver_fallback_candidate ts (name ++ '.' :: ext) h2, hname]
  have hne : name ≠ ts ++ '-' :: name := by
    intro he
    have hlen := congrArg List.length he
    simp [List.length_append] at hlen
    omega
  have hp1 : storeProbe [ts ++ '-' :: name] name = ⟨false, none, none⟩ := by
    simp [storeProbe, hne]
  have hp2 : storeProbe [ts ++ '-' :: name] (ts ++ '-' :: name) =
      ⟨true, some (ts ++ '-' :: name), some (ts ++ '-' :: name)⟩ := by
    simp [storeProbe]
  refine ⟨hfull, ?_, hname, by rw [hp1], ?_, ?_⟩
  · unfold uploadImage
    rw [hfull]
  · rw [processOneFile_trace _ s b rd ts _ h1 h2, hname, hp1]
    simp
  · rw [processOneFile_record _ s b rd ts _ h1 h2, hname, hp1, hp2]
    simp [timestampRecord]

/-- C10 witness: restoring 99-pic.png stores it under 99-pic; the list
scan against a store holding only 99-pic probes pic first without a match
and classifies the file available through the fallback candidate. -/
theorem restore_stores_fallback_candidate_witness :
    publicIdOf (("99").data ++ '-' :: (("pic").data ++ '.' :: ("png").data)) =
      ("99").data ++ '-' :: ("pic").data ∧
    uploadImage (fun _ _ => none)
        (localPathOf (("99").data ++ '-' ::
          (("pic").data ++ '.' :: ("png").data)))
        (("99").data ++ '-' :: (("pic").data ++ '.' :: ("png").data)) =
      (fun _ _ => none)
        (localPathOf (("99").data ++ '-' ::
          (("pic").data ++ '.' :: ("png").data)))
        (("99").data ++ '-' :: ("pic").data) ∧
    publicIdOf (("pic").data ++ '.' :: ("png").data) = ("pic").data ∧
    (storeProbe [("99").data ++ '-' :: ("pic").data] (("pic").data)).exists_ =
      false ∧
    (processOneFile (storeProbe [("99").data ++ '-' :: ("pic").data])
        (StatOutcome.ok 3 4) true
        (("99").data ++ '-' :: (("pic").data ++ '.' :: ("png").data))).2 =
      [("pic").data, ("99").data ++ '-' :: ("pic").data] ∧
    (processOneFile (storeProbe [("99").data ++ '-' :: ("pic").data])
        (StatOutcome.ok 3 4) true
        (("99").data ++ '-' ::
          (("pic").data ++ '.' :: ("png").data))).1.status = "available" :=
  restore_stores_fallback_candidate (fun _ _ => none) 3 4 true
    (("99").data) (("pic").data) (("png").data)
    (by decide) (by decide) (by decide)

end CloudApp
